import Mathlib

/-!
Verification development for the housing-tribunal scraper repository.

The Python sources under `scripts/` and `scraper/` are shallowly embedded
as executable Lean definitions: pure helpers become Lean functions, the
Postgres tables become explicit list-based states, and the SQL statements
(`INSERT ... ON CONFLICT`) become pure state transformers.  Machine-level
details that the scripts delegate to the standard library (JSON
serialisation, regular-expression search) are modelled by concrete Lean
functions over `List Char` that implement the fragment of behaviour the
scripts exercise.
-/

/-! ## Character and string utilities -/


/-- Word characters in the sense of Python's regex `\w` (ASCII fragment):
letters, digits and underscore. -/
def isWordChar (c : Char) : Bool :=
  c.isAlpha || c.isDigit || c = '_'

/-- `leadMatch pat s` holds when `pat` is an initial segment of `s`. -/
def leadMatch : List Char → List Char → Bool
  | [], _ => true
  | _ :: _, [] => false
  | p :: ps, h :: hs => p = h && leadMatch ps hs

/-- `leadMatchRest pat s` returns the remainder of `s` after an initial
segment equal to `pat`, if there is one. -/
def leadMatchRest : List Char → List Char → Option (List Char)
  | [], hs => some hs
  | _ :: _, [] => none
  | p :: ps, h :: hs => if p = h then leadMatchRest ps hs else none

/-- `containsSub pat s`: `pat` occurs somewhere in `s` (Python
`re.search` with a literal pattern, or the `in` operator on `str`). -/
def containsSub (pat : List Char) : List Char → Bool
  | [] => leadMatch pat []
  | h :: hs => leadMatch pat (h :: hs) || containsSub pat hs

/-- Whether a `\b` word boundary sits between an optional previous
character and the start of a word-character pattern occurrence. -/
def boundaryBefore : Option Char → Bool
  | none => true
  | some c => !isWordChar c

/-- Whether a `\b` word boundary follows a pattern occurrence, given the
remaining input. -/
def boundaryAfter : List Char → Bool
  | [] => true
  | c :: _ => !isWordChar c

/-- Helper for `wordBounded`, carrying the previously consumed character. -/
def wordBoundedAux (pat : List Char) : Option Char → List Char → Bool
  | _, [] => false
  | prev, h :: hs =>
    (boundaryBefore prev &&
      (match leadMatchRest pat (h :: hs) with
        | some rest => boundaryAfter rest
        | none => false))
    || wordBoundedAux pat (some h) hs

/-- Python `re.search(r"\b<pat>\b", s)` for a pattern made of word
characters: some occurrence of `pat` in `s` has no word character
immediately before or after it. -/
def wordBounded (pat : List Char) (s : List Char) : Bool :=
  wordBoundedAux pat none s

/-- Lower-case a character list (the scripts only feed ASCII text). -/
def lowerStr (s : List Char) : List Char :=
  s.map Char.toLower

/-- Python `url.split("/")[-1]`: the text after the final `/`
(the whole string when no `/` occurs). -/
def lastComponent (s : List Char) : List Char :=
  ((s.reverse.takeWhile (fun c => c ≠ '/')).reverse)

/-! ## Artifact classifier

Translation of `classify_document` from `scripts/rescrape_cases.py`
(lines 84–115).  The function lower-cases the concatenation
`f"{link_text} {surrounding_text} {href}"`, tries the "reasons" regex
group, then the "decision" regex group, and finally falls back to
substring keyword checks on the final path component of `href`. -/

/-- The "reasons" regex group of `classify_document` applied to
lower-cased text: `statement of reasons`, `\breasons\b`,
`decision and reasons`, `reasons for decision`, `full reasons`. -/
def reasonsPatternHit (text : List Char) : Bool :=
  containsSub "statement of reasons".data text ||
  wordBounded "reasons".data text ||
  containsSub "decision and reasons".data text ||
  containsSub "reasons for decision".data text ||
  containsSub "full reasons".data text

/-- The "decision" regex group of `classify_document` applied to
lower-cased text: `\bdecision\b`, `tribunal decision`, `determination`,
`judgment`, `judgement`. -/
def decisionPatternHit (text : List Char) : Bool :=
  wordBounded "decision".data text ||
  containsSub "tribunal decision".data text ||
  containsSub "determination".data text ||
  containsSub "judgment".data text ||
  containsSub "judgement".data text

/-- The combined text `f"{link_text} {surrounding_text} {href}".lower()`
built by `classify_document`. -/
def combinedText (link_text surrounding_text href : List Char) : List Char :=
  lowerStr (link_text ++ [' '] ++ surrounding_text ++ [' '] ++ href)

/-- The lower-cased final path component `href.split("/")[-1].lower()`
used by the filename fallback of `classify_document`. -/
def fnameOf (href : List Char) : List Char :=
  lowerStr (lastComponent href)

/-- Substring keyword check of the filename fallback for "reasons":
`any(keyword in fname for keyword in ("reasons", "reason"))`. -/
def fnameReasonsHit (fname : List Char) : Bool :=
  containsSub "reasons".data fname || containsSub "reason".data fname

/-- Substring keyword check of the filename fallback for "decision":
keywords `decision`, `determination`, `judgment`, `judgement`. -/
def fnameDecisionHit (fname : List Char) : Bool :=
  containsSub "decision".data fname || containsSub "determination".data fname ||
  containsSub "judgment".data fname || containsSub "judgement".data fname

/-- `classify_document` from `scripts/rescrape_cases.py` lines 84–115. -/
def classify_document (link_text surrounding_text href : List Char) : String :=
  let text := combinedText link_text surrounding_text href
  if reasonsPatternHit text then "reasons"
  else if decisionPatternHit text then "decision"
  else
    let fname := fnameOf href
    if fnameReasonsHit fname then "reasons"
    else if fnameDecisionHit fname then "decision"
    else "unknown"

/-- The classifier as the specification sentence describes it: the two
regex groups are evaluated over the combined text, and, if neither
matched, the *same two pattern groups* are evaluated against the
filename alone.  Stated only for comparison with `classify_document`;
the difference between the two is the subject of claim C6. -/
def spec_classify_document (link_text surrounding_text href : List Char) : String :=
  let text := combinedText link_text surrounding_text href
  if reasonsPatternHit text then "reasons"
  else if decisionPatternHit text then "decision"
  else
    let fname := fnameOf href
    if reasonsPatternHit fname then "reasons"
    else if decisionPatternHit fname then "decision"
    else "unknown"

/-! ## Discovery convergence policy

Translation of the per-batch stop logic of `main` in
`scripts/discover_new_cases.py`, lines 524–541.  Timestamps are modelled
as integers, `entry.decided_at` as an optional integer. -/

/-- A listing entry as far as the stop decision observes it
(`scraper/govuk_listing.py`, `ListingEntry`): its slug and its optional
`decided_at` timestamp. -/
structure ListingEntryM where
  slug : String
  decided_at : Option Int
deriving DecidableEq, Repr

/-- Lines 524–528: `all_past_cutoff` is `False` when no cutoff is
available, and otherwise requires every entry to carry a timestamp that
is at or before the cutoff (`entry.decided_at and entry.decided_at <=
cutoff`). -/
def all_past_cutoff (cutoff : Option Int) (entries : List ListingEntryM) : Bool :=
  match cutoff with
  | none => false
  | some c => entries.all fun e =>
      match e.decided_at with
      | some d => decide (d ≤ c)
      | none => false

/-- Lines 530–533: the rolling count of consecutive pages without
insertions after the current batch is accounted for. -/
def pages_without_new_after (pagesWithoutNew pageInserted : Nat) : Nat :=
  if pageInserted = 0 then pagesWithoutNew + 1 else 0

/-- Lines 535–541: the run breaks out of the page loop after the current
batch exactly when this decision is `true` (either the cutoff stop at
line 535 or the stale-page stop at line 539 fires). -/
def discover_stop_decision (cutoff : Option Int) (entries : List ListingEntryM)
    (pageInserted pagesWithoutNew maxStalePages : Nat) : Bool :=
  (pageInserted == 0 && all_past_cutoff cutoff entries)
  || (maxStalePages ≤ pages_without_new_after pagesWithoutNew pageInserted)

/-- The stop condition in the words of claim C1: either (a) a cutoff is
available, every candidate's remote timestamp is at or before the
cutoff, and zero new insertions occurred, or (b) the rolling count of
consecutive zero-insertion batches has reached the stale-batch
threshold.  Stated for comparison with `discover_stop_decision`. -/
def spec_stop_condition (cutoff : Option Int) (entries : List ListingEntryM)
    (pageInserted pagesWithoutNew maxStalePages : Nat) : Prop :=
  (∃ c, cutoff = some c ∧
    (∀ e ∈ entries, ∃ d, e.decided_at = some d ∧ d ≤ c) ∧
    pageInserted = 0)
  ∨ maxStalePages ≤ pages_without_new_after pagesWithoutNew pageInserted

/-! ## Idempotent persistence engine: cases

Translation of `upsert_case` from `scripts/discover_new_cases.py`
(lines 269–317); `upsert_case_meta` in `scripts/rescrape_cases.py`
(lines 253–281) executes the same statement.  The `cases` table is a
list of records together with the next fresh `id`; `govuk_slug` carries
a unique index (the `ON CONFLICT (govuk_slug)` target).  `NOW()` is
modelled by an explicit clock argument. -/

/-- The mutable attributes written by the upsert besides `html_url`. -/
structure CaseAttrs where
  title : Option String
  category : Option String
  subcategory : Option String
  published_at : Option String
  decision_date : Option String
deriving DecidableEq, Repr

/-- One row of the `cases` table, restricted to the columns the scripts
touch. -/
structure CaseRec where
  id : Nat
  govuk_slug : String
  html_url : String
  attrs : CaseAttrs
  updated_at : Option Nat
deriving DecidableEq, Repr

/-- The `cases` table: rows in `id` order plus the next serial `id`. -/
structure CasesTable where
  rows : List CaseRec
  nextId : Nat
deriving DecidableEq, Repr

/-- `INSERT ... ON CONFLICT (govuk_slug) DO UPDATE ... RETURNING id,
(xmax = 0) AS inserted`: when a row with the slug exists, its mutable
columns are replaced and `updated_at` is touched, and `inserted` is
`false`; otherwise a fresh row is appended and `inserted` is `true`. -/
def upsert_case (t : CasesTable) (now : Nat) (slug html_url : String)
    (attrs : CaseAttrs) : CasesTable × Nat × Bool :=
  match t.rows.find? (fun r => r.govuk_slug == slug) with
  | some r =>
    ({ t with rows := t.rows.map fun q =>
        if q.govuk_slug == slug then
          { q with html_url := html_url, attrs := attrs, updated_at := some now }
        else q },
     r.id, false)
  | none =>
    ({ rows := t.rows ++ [⟨t.nextId, slug, html_url, attrs, none⟩],
       nextId := t.nextId + 1 },
     t.nextId, true)

/-! ## Idempotent persistence engine: documents

Translation of `insert_document` from `scripts/find_extra_pdfs.py`
(lines 180–221); `insert_document_row` in `scripts/rescrape_cases.py`
(lines 290–326) executes the same statement.  The statement is
`INSERT ... ON CONFLICT DO NOTHING RETURNING id`, so a conflicting
insert returns no row and the function reports `False` without raising.
Modelled from the spec: the uniqueness constraint itself is database
DDL that is not under `src/`; following §3 of the spec ("(case,
artifact URL) pair is unique") it is modelled as uniqueness of the
`(case_id, pdf_url)` pair. -/

/-- The document columns other than the identifying pair. -/
structure DocAttrs where
  sha256 : Option String
  bytes : Option Int
  mime : Option String
  blob_url : Option String
  filename : Option String
  document_type : Option String
  classification_method : String
deriving DecidableEq, Repr

/-- One row of the `documents` table. -/
structure DocRec where
  case_id : String
  pdf_url : String
  attrs : DocAttrs
  downloaded_at : Nat
  processed : Bool
deriving DecidableEq, Repr

/-- The `documents` table. -/
structure DocsTable where
  rows : List DocRec
deriving DecidableEq, Repr

/-- Whether inserting `(case_id, pdf_url)` hits the uniqueness
constraint. -/
def doc_conflict (t : DocsTable) (case_id pdf_url : String) : Bool :=
  t.rows.any fun r => r.case_id == case_id && r.pdf_url == pdf_url

/-- `insert_document`: on conflict the table is unchanged and the
returned flag is `false`; otherwise the row is appended with
`downloaded_at = NOW()` and `processed = FALSE` and the flag is
`true`. -/
def insert_document (t : DocsTable) (now : Nat) (case_id pdf_url : String)
    (attrs : DocAttrs) : DocsTable × Bool :=
  if doc_conflict t case_id pdf_url then (t, false)
  else ({ rows := t.rows ++ [⟨case_id, pdf_url, attrs, now, false⟩] }, true)

/-! ## JSON values and parsing

The progress cursor payloads are JSON strings produced by
`json.dumps({"offset": ..., "timestamp": ...})` and consumed by
`json.loads`.  The fragment of JSON the scripts exercise is modelled
concretely: objects, arrays, strings with simple escapes, integers,
booleans and `null` (floats are not modelled; the scripts never write
them into a cursor payload).  The parser is fuel-indexed; `json_loads`
supplies one unit of fuel per input character plus one, which is enough
for every input in the modelled fragment. -/

/-- A parsed JSON value. -/
inductive JVal where
  | null
  | bool (b : Bool)
  | int (n : Int)
  | str (s : List Char)
  | arr (elems : List JVal)
  | obj (members : List (List Char × JVal))
deriving Repr

/-- JSON whitespace. -/
def isWsChar (c : Char) : Bool :=
  c = ' ' || c = '\t' || c = '\n' || c = '\r'

/-- Drop leading JSON whitespace. -/
def skipWs : List Char → List Char
  | [] => []
  | c :: cs => if isWsChar c then skipWs cs else c :: cs

/-- The simple escape sequences `\" \\ \/ \n \t \r \b \f`. -/
def unescapeChar (c : Char) : Option Char :=
  if c = '"' then some '"'
  else if c = '\\' then some '\\'
  else if c = '/' then some '/'
  else if c = 'n' then some '\n'
  else if c = 't' then some '\t'
  else if c = 'r' then some '\r'
  else if c = 'b' then some (Char.ofNat 8)
  else if c = 'f' then some (Char.ofNat 12)
  else none

/-- Worker for `parseStrBody`; the flag records that the previous
character was a backslash whose escape is still to be decoded. -/
def parseStrBodyAux : Bool → List Char → Option (List Char × List Char)
  | _, [] => none
  | true, e :: cs =>
    match unescapeChar e with
    | none => none
    | some u =>
      match parseStrBodyAux false cs with
      | none => none
      | some (s, r) => some (u :: s, r)
  | false, c :: cs =>
    if c = '"' then some ([], cs)
    else if c = '\\' then parseStrBodyAux true cs
    else
      match parseStrBodyAux false cs with
      | none => none
      | some (s, r) => some (c :: s, r)

/-- Parse the body of a JSON string after its opening quote, returning
the decoded characters and the input following the closing quote. -/
def parseStrBody (cs : List Char) : Option (List Char × List Char) :=
  parseStrBodyAux false cs

/-- Decimal value of a digit list. -/
def digitsToNat (ds : List Char) : Nat :=
  ds.foldl (fun acc c => acc * 10 + (c.toNat - '0'.toNat)) 0

/-- Split a leading run of digits from the input. -/
def spanDigits (cs : List Char) : List Char × List Char :=
  (cs.takeWhile Char.isDigit, cs.dropWhile Char.isDigit)

/-- A JSON integer literal must not continue with a fraction or
exponent (floats are outside the modelled fragment). -/
def numberOkAfter : List Char → Bool
  | [] => true
  | c :: _ => !(c = '.' || c = 'e' || c = 'E')

/-- A JSON integer's digit run: nonempty, and no leading zero unless it
is the single digit `0`. -/
def digitsOk : List Char → Bool
  | [] => false
  | [_] => true
  | c :: _ :: _ => c != '0'

/-- Parse a JSON integer literal. -/
def parseNumber : List Char → Option (JVal × List Char)
  | [] => none
  | c :: cs =>
    if c = '-' then
      let (ds, rest) := spanDigits cs
      if digitsOk ds && numberOkAfter rest then
        some (.int (-(digitsToNat ds : Int)), rest)
      else none
    else
      let (ds, rest) := spanDigits (c :: cs)
      if digitsOk ds && numberOkAfter rest then
        some (.int ((digitsToNat ds : Int)), rest)
      else none

mutual

/-- Parse one JSON value.  The fuel argument bounds the recursion. -/
def parseVal : Nat → List Char → Option (JVal × List Char)
  | 0, _ => none
  | f + 1, cs =>
    match skipWs cs with
    | [] => none
    | c :: rest =>
      if c = '\x7b' then
        match parseMembers f true rest with
        | some (kvs, r) => some (.obj kvs, r)
        | none => none
      else if c = '[' then
        match parseElems f true rest with
        | some (xs, r) => some (.arr xs, r)
        | none => none
      else if c = '"' then
        match parseStrBody rest with
        | some (s, r) => some (.str s, r)
        | none => none
      else
        match leadMatchRest "true".data (c :: rest) with
        | some r => some (.bool true, r)
        | none =>
          match leadMatchRest "false".data (c :: rest) with
          | some r => some (.bool false, r)
          | none =>
            match leadMatchRest "null".data (c :: rest) with
            | some r => some (.null, r)
            | none => parseNumber (c :: rest)

/-- Parse the members of a JSON object after its opening brace and
through its closing brace.  `allowEnd` permits an immediate closing
brace (empty object); it is off after a comma, so trailing commas are
rejected as `json.loads` rejects them. -/
def parseMembers : Nat → Bool → List Char →
    Option (List (List Char × JVal) × List Char)
  | 0, _, _ => none
  | f + 1, allowEnd, cs =>
    match skipWs cs with
    | [] => none
    | c :: rest =>
      if c = '\x7d' then
        if allowEnd then some ([], rest) else none
      else if c = '"' then
        match parseStrBody rest with
        | none => none
        | some (key, r1) =>
          match skipWs r1 with
          | [] => none
          | d :: r2 =>
            if d = ':' then
              match parseVal f r2 with
              | none => none
              | some (v, r3) =>
                match skipWs r3 with
                | [] => none
                | c2 :: r4 =>
                  if c2 = ',' then
                    match parseMembers f false r4 with
                    | some (kvs, r5) => some ((key, v) :: kvs, r5)
                    | none => none
                  else if c2 = '\x7d' then some ([(key, v)], r4)
                  else none
            else none
      else none

/-- Parse the elements of a JSON array after its opening bracket and
through its closing bracket. -/
def parseElems : Nat → Bool → List Char → Option (List JVal × List Char)
  | 0, _, _ => none
  | f + 1, allowEnd, cs =>
    match skipWs cs with
    | [] => none
    | c :: rest =>
      if c = ']' then
        if allowEnd then some ([], rest) else none
      else
        match parseVal f (c :: rest) with
        | none => none
        | some (v, r1) =>
          match skipWs r1 with
          | [] => none
          | c2 :: r2 =>
            if c2 = ',' then
              match parseElems f false r2 with
              | some (xs, r3) => some (v :: xs, r3)
              | none => none
            else if c2 = ']' then some ([v], r2)
            else none

end

/-- `json.loads` on the modelled fragment: parse one value and require
only whitespace to remain.  `none` models the `json.JSONDecodeError`
path. -/
def json_loads (s : List Char) : Option JVal :=
  match parseVal (s.length + 1) s with
  | some (v, rest) => if skipWs rest = [] then some v else none
  | none => none

/-- Python `dict.get` with a JSON-object member list: the value of the
last binding of the key, as `json.loads` keeps the last duplicate. -/
def objGet : List (List Char × JVal) → List Char → Option JVal
  | [], _ => none
  | (k, v) :: rest, key =>
    match objGet rest key with
    | some w => some w
    | none => if k = key then some v else none

/-- Digit run check for Python `int(str)`. -/
def allDigits (ds : List Char) : Bool :=
  ds.all Char.isDigit

/-- Python `int(s)` on a string: strip whitespace, optional sign, then
a nonempty digit run (the fragment without underscores or other
bases). -/
def pyIntOfString (s : List Char) : Option Int :=
  let t := ((s.dropWhile isWsChar).reverse.dropWhile isWsChar).reverse
  match t with
  | '-' :: ds =>
    if !ds.isEmpty && allDigits ds then some (-(digitsToNat ds : Int)) else none
  | '+' :: ds =>
    if !ds.isEmpty && allDigits ds then some ((digitsToNat ds : Int)) else none
  | ds =>
    if !ds.isEmpty && allDigits ds then some ((digitsToNat ds : Int)) else none

/-- Python `int(...)` applied to a JSON value: integers pass through,
booleans coerce to 1/0, numeric strings are read, and everything else
raises (modelled as `none`). -/
def pyInt : JVal → Option Int
  | .int n => some n
  | .bool b => some (if b then 1 else 0)
  | .str s => pyIntOfString s
  | _ => none

/-! ## Progress cursor store

Translation of `clear_progress`, `load_progress` and `save_progress`
from `scripts/find_extra_pdfs.py` (lines 113–144); `get_resume_offset`
and `save_progress` in `scripts/rescrape_cases.py` (lines 198–226)
implement the same row semantics with a `SELECT`-then-`UPDATE`/`INSERT`
pair instead of `ON CONFLICT`.  `NOW()` is an explicit clock. -/

/-- One row of the `cursors` table (`ensure_cursor_table`,
`scripts/rescrape_cases.py` lines 229–241): unique `name`, nullable
`last_seen_slug` payload, `last_run_at`. -/
structure CursorRec where
  name : String
  last_seen_slug : Option (List Char)
  last_run_at : Nat
deriving DecidableEq, Repr

/-- The `cursors` table. -/
structure CursorsTable where
  rows : List CursorRec
deriving DecidableEq, Repr

/-- `SELECT last_seen_slug FROM cursors WHERE name=%s`: `none` when the
row is absent, otherwise the (nullable) payload column. -/
def cursor_lookup (t : CursorsTable) (name : String) : Option (Option (List Char)) :=
  (t.rows.find? fun r => r.name == name).map (·.last_seen_slug)

/-- The payload-level body of `load_progress` (lines 119–129): `0` when
the row is absent or the column is NULL or empty, otherwise
`int(json.loads(payload).get("offset", 0))` with every exception
returning `0`.  Total by construction — the embedded function returns
an integer on every input, which is the claim's "never raises". -/
def load_progress_payload (row : Option (Option (List Char))) : Int :=
  match row with
  | none => 0
  | some none => 0
  | some (some s) =>
    if s.isEmpty then 0
    else
      match json_loads s with
      | some (.obj kvs) =>
        match objGet kvs "offset".data with
        | some v => (pyInt v).getD 0
        | none => 0
      | some _ => 0
      | none => 0

/-- `load_progress` from `scripts/find_extra_pdfs.py` lines 119–129. -/
def load_progress (t : CursorsTable) (name : String) : Int :=
  load_progress_payload (cursor_lookup t name)

/-- `get_resume_offset` from `scripts/rescrape_cases.py` lines 198–208:
the same row read and payload handling as `load_progress`. -/
def get_resume_offset (t : CursorsTable) (cursorName : String) : Int :=
  load_progress_payload (cursor_lookup t cursorName)

/-- `repr` of an integer as `json.dumps` writes it. -/
def int_repr (n : Int) : List Char :=
  (toString n).data

/-- `json.dumps({"offset": offset, "timestamp": ts})` with the default
separators, as built by `save_progress`. -/
def progress_payload (offset : Int) (ts : List Char) : List Char :=
  "\x7b\"offset\": ".data ++ int_repr offset ++
    ", \"timestamp\": \"".data ++ ts ++ "\"\x7d".data

/-- Create-or-replace of the single cursor row for `name`
(`INSERT ... ON CONFLICT (name) DO UPDATE`, and equivalently the
`SELECT`-then-`UPDATE`/`INSERT` of `scripts/rescrape_cases.py`). -/
def cursor_upsert (t : CursorsTable) (name : String) (payload : List Char)
    (now : Nat) : CursorsTable :=
  if t.rows.any (fun r => r.name == name) then
    { rows := t.rows.map fun r =>
        if r.name == name then
          { r with last_seen_slug := some payload, last_run_at := now }
        else r }
  else
    { rows := t.rows ++ [⟨name, some payload, now⟩] }

/-- `save_progress` from `scripts/find_extra_pdfs.py` lines 132–144. -/
def save_progress (t : CursorsTable) (name : String) (offset : Int)
    (ts : List Char) (now : Nat) : CursorsTable :=
  cursor_upsert t name (progress_payload offset ts) now

/-- `clear_progress` from `scripts/find_extra_pdfs.py` lines 113–116
(`DELETE FROM cursors WHERE name = %s`; `clear_cursor` in
`scripts/discover_new_cases.py` lines 202–205 is identical). -/
def clear_progress (t : CursorsTable) (name : String) : CursorsTable :=
  { rows := t.rows.filter fun r => !(r.name == name) }

/-- `save_cursor` from `scripts/discover_new_cases.py` lines 188–199:
create-or-replace of the named cursor row with a JSON payload. -/
def save_cursor (t : CursorsTable) (name : String) (payload : List Char)
    (now : Nat) : CursorsTable :=
  cursor_upsert t name payload now

/-! ## Reconciler and backfill (`scripts/find_extra_pdfs.py`)

`process_case` (lines 235–300) fetches the decision page, diffs the
on-page PDF list against the persisted URLs for the case, and, when
backfill is enabled and the gate passes, inserts the missing rows.
Network collaborators are injected: `fetch` maps a page URL to its
extracted PDF entries, `download` maps a PDF URL to
`(sha256, byte length, mime)`.  The model additionally returns the list
of URLs for which an insert was attempted (the `insert_document` calls
made), which the source observes through its database writes. -/

/-- One extracted PDF link as produced by
`extract_pdfs_from_decision_page` (`scripts/rescrape_cases.py` lines
152–168). -/
structure PdfEntry where
  url : String
  link_text : String
  context_text : String
  document_type : String
deriving DecidableEq, Repr

/-- `decide_doc_metadata` from `scripts/find_extra_pdfs.py` lines
224–228. -/
def decide_doc_metadata (p : PdfEntry) : Option String × String :=
  if p.document_type == "reasons" || p.document_type == "decision" then
    (some p.document_type, "filename")
  else (none, "default")

/-- `derive_filename` from `scripts/find_extra_pdfs.py` lines 231–232:
`url.split("/")[-1] if url else None`. -/
def derive_filename (url : String) : Option String :=
  if url == "" then none else some (String.mk (lastComponent url.data))

/-- A row of the `cases` table as `fetch_case_batch` selects it
(lines 147–166): id (as text), slug, page URL. -/
structure CaseRowM where
  case_id : String
  slug : Option String
  html_url : Option String
deriving DecidableEq, Repr

/-- `CaseResult` from `scripts/find_extra_pdfs.py` lines 68–76. -/
structure CaseResultM where
  case_id : String
  slug : Option String
  html_url : Option String
  db_count : Nat
  web_count : Nat
  missing_urls : List String
  inserted_urls : List String
deriving DecidableEq, Repr

/-- `fetch_existing_pdf_urls` (lines 169–177): the persisted PDF URLs
of one case. -/
def fetch_existing_pdf_urls (t : DocsTable) (case_id : String) : List String :=
  (t.rows.filter fun r => r.case_id == case_id).map (·.pdf_url)

/-- The insertion loop of `process_case` (lines 263–285) over the
missing PDFs: in dry-run each iteration `continue`s before any insert;
otherwise the PDF is downloaded, hashed and handed to
`insert_document`.  Returns the new table, the inserted URLs and the
attempted URLs. -/
def backfill_loop (now : Nat) (case_id : String)
    (download : String → String × Int × Option String) (dry_run : Bool) :
    DocsTable → List PdfEntry → DocsTable × List String × List String
  | t, [] => (t, [], [])
  | t, pdf :: rest =>
    if dry_run then backfill_loop now case_id download dry_run t rest
    else
      let (sha, len, mime) := download pdf.url
      let (document_type, classification_method) := decide_doc_metadata pdf
      let filename := derive_filename pdf.url
      let (t', ins) := insert_document t now case_id pdf.url
        ⟨some sha, some len, mime, none, filename, document_type,
         classification_method⟩
      let (t'', insUrls, attempted) :=
        backfill_loop now case_id download dry_run t' rest
      (t'', if ins then pdf.url :: insUrls else insUrls, pdf.url :: attempted)

/-- `process_case` from `scripts/find_extra_pdfs.py` lines 235–300
(the `list_missing` flag only prints and is omitted).  Returns the new
documents table, the optional surfaced `CaseResult`, and the URLs for
which an insert was attempted. -/
def process_case (t : DocsTable) (now : Nat) (case : CaseRowM)
    (fetch : String → List PdfEntry)
    (download : String → String × Int × Option String)
    (backfill_enabled dry_run : Bool) :
    DocsTable × Option CaseResultM × List String :=
  match case.html_url with
  | none => (t, none, [])
  | some html_url =>
    let pdfs := fetch html_url
    let web_count := (pdfs.map (·.url)).length
    let existing_urls := fetch_existing_pdf_urls t case.case_id
    let db_count := existing_urls.dedup.length
    let missing_pdfs := pdfs.filter fun p => !(decide (p.url ∈ existing_urls))
    let missing_urls := missing_pdfs.map (·.url)
    let (t', inserted_urls, attempted) :=
      if backfill_enabled && !missing_urls.isEmpty && decide (2 ≤ web_count) then
        backfill_loop now case.case_id download dry_run t missing_pdfs
      else (t, [], [])
    if !missing_urls.isEmpty && decide (2 ≤ web_count) then
      (t', some ⟨case.case_id, case.slug, some html_url, db_count, web_count,
                 missing_urls, inserted_urls⟩, attempted)
    else (t', none, attempted)

/-! ## Backfill orchestrator main loop (`scripts/find_extra_pdfs.py` `main`) -/

/-- The mutable database state of a backfill run: the `cases` table is
only read. -/
structure FeState where
  docs : DocsTable
  cursors : CursorsTable
deriving DecidableEq, Repr

/-- `fetch_case_batch` (lines 147–166): one `LIMIT`/`OFFSET` page of
cases with a page URL, in id order. -/
def fetch_case_batch (cases : List CaseRowM) (limit offset : Nat) : List CaseRowM :=
  ((cases.filter fun c => c.html_url.isSome).drop offset).take limit

/-- The `COUNT(*)` of cases with a page URL (lines 393–395). -/
def fe_total_available (cases : List CaseRowM) : Nat :=
  (cases.filter fun c => c.html_url.isSome).length

/-- The per-batch fold over cases (lines 411–447): each case is handed
to `process_case`; only the documents table changes. -/
def fe_cases_fold (now : Nat) (fetch : String → List PdfEntry)
    (download : String → String × Int × Option String)
    (backfill_enabled dry_run : Bool) :
    DocsTable → List CaseRowM → DocsTable
  | docs, [] => docs
  | docs, c :: rest =>
    let (docs', _, _) :=
      process_case docs now c fetch download backfill_enabled dry_run
    fe_cases_fold now fetch download backfill_enabled dry_run docs' rest

/-- The batch loop of `main` (lines 399–453): while cases remain (and
the optional item limit is not reached), fetch a batch, process it, and
unconditionally `save_progress` the advanced offset — the save at lines
449–450 is not guarded by `--dry-run`.  Fuel bounds the iteration count;
`fe_main` supplies enough for the loop to reach its exit condition. -/
def fe_loop (cases : List CaseRowM) (totalAvailable batchSize : Nat)
    (limit : Option Nat) (cursorName : String)
    (fetch : String → List PdfEntry)
    (download : String → String × Int × Option String)
    (backfill_enabled dry_run : Bool) (ts : List Char) (now : Nat) :
    Nat → FeState → Nat → Nat → FeState
  | 0, st, _, _ => st
  | fuel + 1, st, offset, processed =>
    if offset < totalAvailable then
      if (match limit with | some l => decide (l ≤ processed) | none => false) then st
      else
        let batchLimit := min batchSize (totalAvailable - offset)
        let batchLimit :=
          match limit with
          | some l => min batchLimit (l - processed)
          | none => batchLimit
        let batch := fetch_case_batch cases batchLimit offset
        if batch.isEmpty then st
        else
          let docs' := fe_cases_fold now fetch download backfill_enabled dry_run
            st.docs batch
          let offset' := offset + batch.length
          let cursors' :=
            save_progress st.cursors cursorName (offset' : Int) ts now
          fe_loop cases totalAvailable batchSize limit cursorName fetch download
            backfill_enabled dry_run ts now fuel ⟨docs', cursors'⟩ offset'
            (processed + batch.length)
    else st

/-- `main` of `scripts/find_extra_pdfs.py` (lines 334–482) restricted to
its database effects: `backfill_enabled = (not no_backfill) and (not
dry_run)` (line 343), optional cursor reset, resume offset from
`load_progress`, then the batch loop. -/
def fe_main (cases : List CaseRowM) (docs0 : DocsTable) (cursors0 : CursorsTable)
    (batchSize : Nat) (limit : Option Nat) (cursorName : String)
    (fetch : String → List PdfEntry)
    (download : String → String × Int × Option String)
    (reset_cursor dry_run no_backfill : Bool) (ts : List Char) (now : Nat) :
    FeState :=
  let backfill_enabled := !no_backfill && !dry_run
  let cursors1 := if reset_cursor then clear_progress cursors0 cursorName else cursors0
  let offset0 := (load_progress cursors1 cursorName).toNat
  let total := fe_total_available cases
  fe_loop cases total batchSize limit cursorName fetch download
    backfill_enabled dry_run ts now (total + 1) ⟨docs0, cursors1⟩ offset0 0

/-! ## Discovery per-entry processing (`scripts/discover_new_cases.py`) -/

/-- The mutable database state of a discovery run. -/
structure DiscoverState where
  cases : CasesTable
  docs : DocsTable
deriving DecidableEq, Repr

/-- The per-PDF loop of `process_listing_entry` (lines 355–416).  The
injected `download` returns `none` when `download_pdf` raises; that
path `continue`s without touching the database (lines 369–376).  In
dry-run the insert is skipped and the URL is recorded as if inserted
(line 402). -/
def discover_doc_loop (now : Nat) (case_id : String)
    (download : String → Option (String × Int × Option String))
    (dry_run export_docs_enabled : Bool) :
    DocsTable → List PdfEntry → DocsTable × List String
  | t, [] => (t, [])
  | t, pdf :: rest =>
    if pdf.url == "" then
      discover_doc_loop now case_id download dry_run export_docs_enabled t rest
    else
      let should_download := export_docs_enabled || !dry_run
      if should_download && (download pdf.url).isNone then
        discover_doc_loop now case_id download dry_run export_docs_enabled t rest
      else if !dry_run then
        match download pdf.url with
        | some (sha, len, mime) =>
          let (document_type, classification_method) := decide_doc_metadata pdf
          let filename := derive_filename pdf.url
          let (t', ins) := insert_document t now case_id pdf.url
            ⟨some sha, some len, mime, none, filename, document_type,
             classification_method⟩
          let (t'', urls) :=
            discover_doc_loop now case_id download dry_run export_docs_enabled
              t' rest
          (t'', if ins then pdf.url :: urls else urls)
        | none =>
          discover_doc_loop now case_id download dry_run export_docs_enabled t rest
      else
        let (t'', urls) :=
          discover_doc_loop now case_id download dry_run export_docs_enabled t rest
        (t'', pdf.url :: urls)

/-- `process_listing_entry` from `scripts/discover_new_cases.py` lines
320–424, restricted to its database effects and returned result:
in dry-run the upsert is skipped and `case_id` is the string
`"dry-run"`; otherwise the case is upserted and, when the upsert
reports an existing row, the function returns `None` (documents are
pulled only for brand-new cases).  The result carries the case id and
the inserted document URLs. -/
def process_listing_entry (st : DiscoverState) (now : Nat)
    (entry_slug entry_url : String) (meta : CaseAttrs) (pdfs : List PdfEntry)
    (download : String → Option (String × Int × Option String))
    (dry_run export_docs_enabled : Bool) :
    DiscoverState × Option (String × List String) :=
  if dry_run then
    let (docs', urls) :=
      discover_doc_loop now "dry-run" download true export_docs_enabled
        st.docs pdfs
    (⟨st.cases, docs'⟩, some ("dry-run", urls))
  else
    let (cases', case_id, inserted) :=
      upsert_case st.cases now entry_slug entry_url meta
    if !inserted then (⟨cases', st.docs⟩, none)
    else
      let (docs', urls) :=
        discover_doc_loop now (toString case_id) download false
          export_docs_enabled st.docs pdfs
      (⟨cases', docs'⟩, some (toString case_id, urls))

/-! ## Run exit codes

Per-item exceptions are injected as a list of flags, one per processed
item, `true` when the item's processing raised (and was caught by the
per-item `except` handler). -/

/-- The number of items whose processing raised: the `errors` counter
of `scripts/find_extra_pdfs.py` (line 446) and the caught exceptions of
`scripts/discover_new_cases.py` (lines 508–511, which are printed but
not counted). -/
def run_error_count (itemRaised : List Bool) : Nat :=
  itemRaised.countP id

/-- Line 482 of `scripts/find_extra_pdfs.py`:
`return 0 if errors == 0 else 1`. -/
def fe_exit_code (errors : Nat) : Nat :=
  if errors == 0 then 0 else 1

/-- Line 576 of `scripts/discover_new_cases.py`: `main` returns `0`
after every completed run, whatever happened to individual items. -/
def discover_main_exit (_itemRaised : List Bool) : Nat :=
  0

/-- `scripts/rescrape_cases.py` lines 526–527: the script calls
`rescrape_and_classify()` and ends; a completed run exits with status
`0` regardless of the `total_errors` counter. -/
def rescrape_main_exit (_itemRaised : List Bool) : Nat :=
  0

/-! ## Concrete fixtures used by the theorems below -/

/-- A case row fixture. -/
def fixCase : CaseRowM := ⟨"1", some "/case-x", some "http://x"⟩

/-- A download collaborator fixture. -/
def fixDl : String → String × Int × Option String :=
  fun _ => ("sha", 10, some "application/pdf")

/-- A PDF entry fixture. -/
def fixPdf (u : String) : PdfEntry := ⟨u, "", "", "unknown"⟩

/-- A detail page exposing exactly two PDFs. -/
def fixFetch2 : String → List PdfEntry :=
  fun _ => [fixPdf "http://a.pdf", fixPdf "http://b.pdf"]

/-- A detail page exposing exactly three PDFs. -/
def fixFetch3 : String → List PdfEntry :=
  fun _ => [fixPdf "http://a.pdf", fixPdf "http://b.pdf", fixPdf "http://c.pdf"]

/-- A detail page exposing exactly one PDF. -/
def fixFetch1 : String → List PdfEntry :=
  fun _ => [fixPdf "http://a.pdf"]

/-- Document attributes fixture. -/
def fixDocAttrs : DocAttrs := ⟨some "s", some 1, none, none, none, none, "default"⟩

/-- A documents table holding two URLs for case `"1"`, disjoint from the
URLs of `fixFetch2`. -/
def fixDocsCD : DocsTable :=
  ⟨[⟨"1", "http://c.pdf", fixDocAttrs, 0, false⟩,
    ⟨"1", "http://d.pdf", fixDocAttrs, 0, false⟩]⟩

/-- A documents table holding one URL for case `"1"`, the first URL of
`fixFetch3`. -/
def fixDocsA : DocsTable :=
  ⟨[⟨"1", "http://a.pdf", fixDocAttrs, 0, false⟩]⟩

/-! ## Generic list lemmas -/

/-- `find?` skips a list with no match and continues in the appended part. -/
theorem find?_append_of_none {α : Type} (p : α → Bool) (l1 l2 : List α)
    (h : l1.find? p = none) : (l1 ++ l2).find? p = l2.find? p := by
  induction l1 with
  | nil => simp
  | cons a l ih =>
    cases hpa : p a with
    | true =>
      rw [List.find?_cons_of_pos _ hpa] at h
      exact absurd h (by simp)
    | false =>
      rw [List.find?_cons_of_neg _ (by simp [hpa])] at h
      rw [List.cons_append, List.find?_cons_of_neg _ (by simp [hpa])]
      exact ih h

/-- A conditional row update is the identity on rows the condition
rejects. -/
theorem map_ite_id {α : Type} (p : α → Bool) (u : α → α) (l : List α)
    (h : ∀ x ∈ l, p x = false) :
    (l.map fun x => if p x then u x else x) = l := by
  induction l with
  | nil => rfl
  | cons a l ih =>
    have ha := h a (by simp)
    simp only [List.map_cons, ha, Bool.false_eq_true, if_false,
      ih (fun x hx => h x (by simp [hx]))]

/-- Filtering with an everywhere-false predicate yields the empty
list. -/
theorem filter_eq_nil_of_false {α : Type} (p : α → Bool) (l : List α)
    (h : ∀ x ∈ l, p x = false) : l.filter p = [] := by
  induction l with
  | nil => rfl
  | cons a l ih =>
    simp [List.filter, h a (by simp), ih (fun x hx => h x (by simp [hx]))]

/-! ## Claim C1: discovery stopping rule -/

/-- One entry passes the cutoff test of `all_past_cutoff` exactly when
it carries a timestamp at or before the cutoff. -/
theorem entry_past_iff (e : ListingEntryM) (c : Int) :
    (match e.decided_at with
      | some d => decide (d ≤ c)
      | none => false) = true ↔ ∃ d, e.decided_at = some d ∧ d ≤ c := by
  cases h : e.decided_at <;> simp

/-- Claim C1: the discovery run stops after a batch exactly when either
(a) a cutoff is available, every candidate's remote timestamp is at or
before the cutoff, and the batch inserted nothing, or (b) the rolling
count of consecutive zero-insertion batches has reached the stale-batch
threshold; and a zero-insertion batch with a candidate timestamped
after the cutoff and the rolling count still below the threshold
continues. -/
theorem discover_stop_iff_spec (cutoff : Option Int) (entries : List ListingEntryM)
    (pageInserted pagesWithoutNew maxStalePages : Nat) :
    (discover_stop_decision cutoff entries pageInserted pagesWithoutNew maxStalePages = true
      ↔ spec_stop_condition cutoff entries pageInserted pagesWithoutNew maxStalePages)
    ∧ (pageInserted = 0 →
        (∃ c, cutoff = some c ∧ ∃ e ∈ entries, ∃ d, e.decided_at = some d ∧ c < d) →
        pagesWithoutNew + 1 < maxStalePages →
        discover_stop_decision cutoff entries pageInserted pagesWithoutNew maxStalePages = false) := by
  constructor
  · unfold discover_stop_decision spec_stop_condition all_past_cutoff
    cases cutoff with
    | none => simp
    | some c =>
      simp only [Bool.or_eq_true, Bool.and_eq_true, beq_iff_eq, decide_eq_true_eq,
        List.all_eq_true]
      constructor
      · rintro (⟨h0, hall⟩ | hs)
        · exact Or.inl ⟨c, rfl, fun e he => (entry_past_iff e c).mp (hall e he), h0⟩
        · exact Or.inr hs
      · rintro (⟨c', hc', hall, h0⟩ | hs)
        · obtain rfl : c = c' := by injection hc'
          exact Or.inl ⟨h0, fun e he => (entry_past_iff e c).mpr (hall e he)⟩
        · exact Or.inr hs
  · rintro h0 ⟨c, rfl, e, he, d, hd, hcd⟩ hstale
    subst h0
    have hallc : all_past_cutoff (some c) entries = false := by
      refine Bool.eq_false_iff.mpr ?_
      intro hcontra
      unfold all_past_cutoff at hcontra
      rw [List.all_eq_true] at hcontra
      have := hcontra e he
      rw [hd] at this
      simp at this
      omega
    unfold discover_stop_decision pages_without_new_after
    simp [hallc]
    omega

/-- Claim C1 witness: a concrete zero-insertion batch whose single
candidate is newer than the cutoff, with the stale count below the
threshold, continues. -/
theorem discover_stop_iff_spec_witness :
    discover_stop_decision (some 3) [⟨"e", some 5⟩] 0 0 2 = false :=
  (discover_stop_iff_spec (some 3) [⟨"e", some 5⟩] 0 0 2).2 rfl
    ⟨3, rfl, ⟨"e", some 5⟩, by simp, 5, rfl, by decide⟩ (by decide)

/-! ## Claim C2: case upsert idempotence -/

/-- Claim C2: upserting the same fresh slug twice with different
mutable attributes leaves exactly one row for the slug, carrying the
second call's attributes; the first call reports inserted and the
second does not. -/
theorem upsert_case_slug_idempotent (t : CasesTable) (now1 now2 : Nat)
    (slug url1 url2 : String) (a1 a2 : CaseAttrs)
    (hfree : ∀ r ∈ t.rows, r.govuk_slug ≠ slug) :
    (upsert_case t now1 slug url1 a1).2.2 = true ∧
    (upsert_case (upsert_case t now1 slug url1 a1).1 now2 slug url2 a2).2.2 = false ∧
    (((upsert_case (upsert_case t now1 slug url1 a1).1 now2 slug url2 a2).1).rows.filter
        (fun r => r.govuk_slug == slug)).length = 1 ∧
    (∀ r ∈ ((upsert_case (upsert_case t now1 slug url1 a1).1 now2 slug url2 a2).1).rows,
      r.govuk_slug = slug → r.html_url = url2 ∧ r.attrs = a2) := by
  have hfalse : ∀ r ∈ t.rows, (r.govuk_slug == slug) = false := by
    intro r hr
    simp [hfree r hr]
  have hfind : t.rows.find? (fun r => r.govuk_slug == slug) = none := by
    rw [List.find?_eq_none]
    intro r hr
    simp [hfree r hr]
  have h1 : upsert_case t now1 slug url1 a1 =
      (⟨t.rows ++ [⟨t.nextId, slug, url1, a1, none⟩], t.nextId + 1⟩, t.nextId, true) := by
    simp [upsert_case, hfind]
  rw [h1]
  have hfind2 : (t.rows ++ [(⟨t.nextId, slug, url1, a1, none⟩ : CaseRec)]).find?
      (fun r => r.govuk_slug == slug) = some ⟨t.nextId, slug, url1, a1, none⟩ := by
    rw [find?_append_of_none _ _ _ hfind]
    simp [List.find?]
  have hmap : ((t.rows ++ [(⟨t.nextId, slug, url1, a1, none⟩ : CaseRec)]).map fun q =>
      if q.govuk_slug == slug then
        { q with html_url := url2, attrs := a2, updated_at := some now2 }
      else q) = t.rows ++ [⟨t.nextId, slug, url2, a2, some now2⟩] := by
    rw [List.map_append, map_ite_id _ _ _ hfalse]
    simp
  have h2 : upsert_case (⟨t.rows ++ [⟨t.nextId, slug, url1, a1, none⟩], t.nextId + 1⟩ : CasesTable)
      now2 slug url2 a2 =
      (⟨t.rows ++ [⟨t.nextId, slug, url2, a2, some now2⟩], t.nextId + 1⟩, t.nextId, false) := by
    simp only [upsert_case, hfind2, hmap]
  rw [h2]
  refine ⟨rfl, rfl, ?_, ?_⟩
  · rw [List.filter_append, filter_eq_nil_of_false _ _ hfalse]
    simp
  · intro r hr hslug
    rcases List.mem_append.mp hr with hl | hr1
    · exact absurd hslug (hfree r hl)
    · simp at hr1
      subst hr1
      exact ⟨rfl, rfl⟩

/-- Claim C2 witness: the double upsert on an empty table at slug `s`
yields exactly one row for `s`. -/
theorem upsert_case_slug_idempotent_witness :
    ((upsert_case (upsert_case ⟨[], 0⟩ 1 "s" "u1" ⟨some "t1", none, none, none, none⟩).1
        2 "s" "u2" ⟨some "t2", none, none, none, none⟩).1.rows.filter
      (fun r => r.govuk_slug == "s")).length = 1 :=
  (upsert_case_slug_idempotent ⟨[], 0⟩ 1 2 "s" "u1" "u2" _ _ (by simp)).2.2.1

/-! ## Claim C3: conflicting document insert is a silent no-op -/

/-- Claim C3: inserting the same `(case, URL)` pair twice persists
exactly one document; the second call reports not-inserted, leaves the
table unchanged, and (being a total function) does not raise. -/
theorem insert_document_conflict_noop (t : DocsTable) (now1 now2 : Nat)
    (cid url : String) (a1 a2 : DocAttrs)
    (hfree : doc_conflict t cid url = false) :
    (insert_document t now1 cid url a1).2 = true ∧
    (insert_document (insert_document t now1 cid url a1).1 now2 cid url a2).2 = false ∧
    (insert_document (insert_document t now1 cid url a1).1 now2 cid url a2).1 =
      (insert_document t now1 cid url a1).1 ∧
    (((insert_document (insert_document t now1 cid url a1).1 now2 cid url a2).1).rows.filter
        (fun r => r.case_id == cid && r.pdf_url == url)).length = 1 := by
  have h1 : insert_document t now1 cid url a1 =
      (⟨t.rows ++ [⟨cid, url, a1, now1, false⟩]⟩, true) := by
    simp [insert_document, hfree]
  rw [h1]
  have hconf : doc_conflict (⟨t.rows ++ [⟨cid, url, a1, now1, false⟩]⟩ : DocsTable) cid url = true := by
    simp [doc_conflict, List.any_append]
  have h2 : insert_document (⟨t.rows ++ [⟨cid, url, a1, now1, false⟩]⟩ : DocsTable)
      now2 cid url a2 = (⟨t.rows ++ [⟨cid, url, a1, now1, false⟩]⟩, false) := by
    simp [insert_document, hconf]
  rw [h2]
  have hfalse : ∀ r ∈ t.rows, (r.case_id == cid && r.pdf_url == url) = false := by
    intro r hr
    by_contra hne
    have hp : (r.case_id == cid && r.pdf_url == url) = true := by
      cases hb : (r.case_id == cid && r.pdf_url == url) with
      | true => rfl
      | false => exact absurd hb hne
    have hcon : doc_conflict t cid url = true := by
      unfold doc_conflict
      rw [List.any_eq_true]
      exact ⟨r, hr, hp⟩
    simp [hcon] at hfree
  refine ⟨rfl, rfl, rfl, ?_⟩
  rw [List.filter_append, filter_eq_nil_of_false _ _ hfalse]
  simp

/-- Claim C3 witness: the double insert of one `(case, URL)` pair into
an empty table reports not-inserted the second time. -/
theorem insert_document_conflict_noop_witness :
    (insert_document (insert_document ⟨[]⟩ 1 "7" "http://a.pdf" fixDocAttrs).1
      2 "7" "http://a.pdf" fixDocAttrs).2 = false :=
  (insert_document_conflict_noop ⟨[]⟩ 1 2 "7" "http://a.pdf" fixDocAttrs fixDocAttrs
    (by decide)).2.1

/-! ## Claims C4, C5 and C8: reconciler diff, backfill gate, dry-run effects -/

/-- In dry-run the insertion loop attempts no insert at all (each
iteration `continue`s before the download). -/
theorem backfill_loop_dry_attempted (now : Nat) (cid : String)
    (download : String → String × Int × Option String) :
    ∀ (t : DocsTable) (pdfs : List PdfEntry),
      (backfill_loop now cid download true t pdfs).2.2 = [] := by
  intro t pdfs
  induction pdfs generalizing t with
  | nil => rfl
  | cons p rest ih => simpa [backfill_loop] using ih t

/-- Claim C4: the reconciler's missing set is the remotely observed
artifact list minus the persisted URL set of the case, by URL equality;
and on a page with 3 remote artifacts of which 1 is persisted, the
surfaced result carries exactly 2 missing URLs. -/
theorem process_case_missing_is_diff :
    (∀ (t : DocsTable) (now : Nat) (c : CaseRowM)
        (fetch : String → List PdfEntry)
        (download : String → String × Int × Option String)
        (be dr : Bool) (res : CaseResultM) (u : String),
      c.html_url = some u →
      (process_case t now c fetch download be dr).2.1 = some res →
      ∀ url, url ∈ res.missing_urls ↔
        ((∃ p ∈ fetch u, p.url = url) ∧
          url ∉ fetch_existing_pdf_urls t c.case_id))
    ∧ (Option.map (fun r => r.missing_urls.length)
        (process_case fixDocsA 7 fixCase fixFetch3 fixDl false false).2.1 = some 2) := by
  constructor
  · intro t now c fetch download be dr res u hu hres url
    simp only [process_case, hu] at hres
    by_cases hcond :
        (!(((fetch u).filter fun p =>
            !(decide (p.url ∈ fetch_existing_pdf_urls t c.case_id))).map (·.url)).isEmpty
          && decide (2 ≤ ((fetch u).map (·.url)).length)) = true
    · rw [if_pos hcond] at hres
      obtain rfl : _ = res := Option.some.inj hres
      simp only [List.mem_map, List.mem_filter]
      constructor
      · rintro ⟨p, ⟨hp, hnp⟩, rfl⟩
        simp at hnp
        exact ⟨⟨p, hp, rfl⟩, hnp⟩
      · rintro ⟨⟨p, hp, rfl⟩, hnotin⟩
        exact ⟨p, ⟨hp, by simpa using hnotin⟩, rfl⟩
    · rw [if_neg hcond] at hres
      simp at hres
  · decide

/-- Claim C4 witness: on the 3-remote/1-persisted fixture, a URL
absent from storage is in the surfaced missing set. -/
theorem process_case_missing_is_diff_witness :
    "http://b.pdf" ∈ (⟨"1", some "/case-x", some "http://x", 1, 3,
        ["http://b.pdf", "http://c.pdf"], []⟩ : CaseResultM).missing_urls :=
  (process_case_missing_is_diff.1 fixDocsA 7 fixCase fixFetch3 fixDl false false
      ⟨"1", some "/case-x", some "http://x", 1, 3, ["http://b.pdf", "http://c.pdf"], []⟩
      "http://x" rfl (by decide) "http://b.pdf").mpr
    ⟨⟨fixPdf "http://b.pdf", by decide, rfl⟩, by decide⟩

/-- Claim C5 counterexample: with 2 remote artifacts and 2 persisted
artifacts whose URLs are disjoint from the remote ones, the remote
count does not exceed the persisted count, yet insertions are attempted
for both remote URLs — the claim's "remote exceeds persisted" gate is
not what the code checks. -/
theorem process_case_gate_counterexample :
    (process_case fixDocsCD 7 fixCase fixFetch2 fixDl true false).2.2 =
      ["http://a.pdf", "http://b.pdf"] ∧
    ((fixFetch2 "http://x").map (·.url)).length = 2 ∧
    ¬ ((fetch_existing_pdf_urls fixDocsCD fixCase.case_id).dedup.length <
        ((fixFetch2 "http://x").map (·.url)).length) := by
  decide

/-- Claim C5 (amended): an insertion is attempted only when backfill
is enabled, dry-run is off, the remote page shows at least two
artifacts, and at least one remote artifact URL is absent from the
persisted set; in particular a page with fewer than two artifacts never
triggers an insertion attempt. -/
theorem process_case_gate_amended :
    (∀ (t : DocsTable) (now : Nat) (c : CaseRowM)
        (fetch : String → List PdfEntry)
        (download : String → String × Int × Option String) (be dr : Bool),
      (process_case t now c fetch download be dr).2.2 ≠ [] →
        be = true ∧ dr = false ∧
        ∃ u, c.html_url = some u ∧ 2 ≤ (fetch u).length ∧
          ∃ p ∈ fetch u, p.url ∉ fetch_existing_pdf_urls t c.case_id)
    ∧ (∀ (t : DocsTable) (now : Nat) (c : CaseRowM)
        (fetch : String → List PdfEntry)
        (download : String → String × Int × Option String) (be dr : Bool)
        (u : String), c.html_url = some u → (fetch u).length < 2 →
        (process_case t now c fetch download be dr).2.2 = []) := by
  constructor
  · intro t now c fetch download be dr hne
    cases hu : c.html_url with
    | none => simp [process_case, hu] at hne
    | some u =>
      simp only [process_case, hu] at hne
      by_cases hg :
          (be && !(((fetch u).filter fun p =>
              !(decide (p.url ∈ fetch_existing_pdf_urls t c.case_id))).map (·.url)).isEmpty
            && decide (2 ≤ ((fetch u).map (·.url)).length)) = true
      · have hparts := hg
        simp only [Bool.and_eq_true, Bool.not_eq_true', decide_eq_true_eq] at hparts
        obtain ⟨⟨hbe, hmiss⟩, hweb⟩ := hparts
        refine ⟨hbe, ?_, u, rfl, by simpa using hweb, ?_⟩
        · by_contra hdr
          have hdr' : dr = true := by
            cases dr
            · exact absurd rfl hdr
            · rfl
          subst hdr'
          have hz := backfill_loop_dry_attempted now c.case_id download t
            ((fetch u).filter fun p =>
              !(decide (p.url ∈ fetch_existing_pdf_urls t c.case_id)))
          rw [if_pos hg] at hne
          by_cases hr :
              (!(((fetch u).filter fun p =>
                  !(decide (p.url ∈ fetch_existing_pdf_urls t c.case_id))).map (·.url)).isEmpty
                && decide (2 ≤ ((fetch u).map (·.url)).length)) = true
          · rw [if_pos hr] at hne
            exact hne hz
          · rw [if_neg hr] at hne
            exact hne hz
        · have hfne : ((fetch u).filter fun p =>
              !(decide (p.url ∈ fetch_existing_pdf_urls t c.case_id))) ≠ [] := by
            intro hnil
            rw [hnil] at hmiss
            simp at hmiss
          obtain ⟨p, hp⟩ := List.exists_mem_of_ne_nil _ hfne
          have hp' := List.mem_filter.mp hp
          exact ⟨p, hp'.1, by simpa using hp'.2⟩
      · rw [if_neg hg] at hne
        by_cases hr :
            (!(((fetch u).filter fun p =>
                !(decide (p.url ∈ fetch_existing_pdf_urls t c.case_id))).map (·.url)).isEmpty
              && decide (2 ≤ ((fetch u).map (·.url)).length)) = true
        · rw [if_pos hr] at hne
          exact absurd rfl hne
        · rw [if_neg hr] at hne
          exact absurd rfl hne
  · intro t now c fetch download be dr u hu hlt
    have hw : decide (2 ≤ ((fetch u).map (·.url)).length) = false := by
      simp only [decide_eq_false_iff_not, List.length_map]
      omega
    simp only [process_case, hu, hw, Bool.and_false, Bool.false_eq_true, if_false]

/-- Claim C5 witness: remote count 1, persisted count 0 — no
insertion attempted. -/
theorem process_case_gate_amended_witness :
    (process_case ⟨[]⟩ 7 fixCase fixFetch1 fixDl true false).2.2 = [] :=
  process_case_gate_amended.2 ⟨[]⟩ 7 fixCase fixFetch1 fixDl true false "http://x" rfl
    (by decide)

/-- In dry-run the discovery per-PDF loop leaves the documents table
unchanged. -/
theorem discover_doc_loop_dry (now : Nat) (cid : String)
    (download : String → Option (String × Int × Option String)) (exp : Bool) :
    ∀ (t : DocsTable) (pdfs : List PdfEntry),
      (discover_doc_loop now cid download true exp t pdfs).1 = t := by
  intro t pdfs
  induction pdfs generalizing t with
  | nil => rfl
  | cons p rest ih =>
    simp only [discover_doc_loop, Bool.not_true, Bool.or_false]
    split
    · exact ih t
    · split
      · exact ih t
      · split
        · simp at *
        · rw [ih t]

/-- With backfill disabled, `process_case` only reads the documents
table. -/
theorem process_case_no_backfill (t : DocsTable) (now : Nat) (c : CaseRowM)
    (fetch : String → List PdfEntry)
    (download : String → String × Int × Option String) (dr : Bool) :
    (process_case t now c fetch download false dr).1 = t := by
  cases hu : c.html_url with
  | none => simp [process_case, hu]
  | some u =>
    simp only [process_case, hu, Bool.false_and, Bool.false_eq_true, if_false]
    split <;> rfl

/-- With backfill disabled, the per-batch case fold leaves the
documents table unchanged. -/
theorem fe_cases_fold_no_backfill (now : Nat) (fetch : String → List PdfEntry)
    (download : String → String × Int × Option String) (dr : Bool) :
    ∀ (docs : DocsTable) (cs : List CaseRowM),
      fe_cases_fold now fetch download false dr docs cs = docs := by
  intro docs cs
  induction cs generalizing docs with
  | nil => rfl
  | cons c rest ih =>
    simp only [fe_cases_fold]
    rcases hp : process_case docs now c fetch download false dr with ⟨docs', r, a⟩
    have h : docs' = docs := by
      have := process_case_no_backfill docs now c fetch download dr
      rw [hp] at this
      simpa using this
    rw [h]
    exact ih docs

/-- With backfill disabled, the backfill main loop never changes the
documents table. -/
theorem fe_loop_no_backfill_docs (cases : List CaseRowM) (total bs : Nat)
    (lim : Option Nat) (cname : String) (fetch : String → List PdfEntry)
    (download : String → String × Int × Option String) (dr : Bool)
    (ts : List Char) (now : Nat) :
    ∀ (fuel : Nat) (st : FeState) (offset processed : Nat),
      (fe_loop cases total bs lim cname fetch download false dr ts now
        fuel st offset processed).docs = st.docs := by
  intro fuel
  induction fuel with
  | zero => intro st o p; rfl
  | succ f ih =>
    intro st o p
    simp only [fe_loop]
    split
    · split
      · rfl
      · split
        · rfl
        · rw [ih]
          exact fe_cases_fold_no_backfill now fetch download dr st.docs _
    · rfl

/-- Claim C8 (amended): with dry-run set, the discovery per-entry
processor leaves the cases and documents tables untouched, and a
backfill run leaves the documents table untouched; the cursor row is
still written (see the counterexample), and the rescan orchestrator has
no dry-run mode at all. -/
theorem dry_run_preserves_cases_and_documents :
    (∀ (st : DiscoverState) (now : Nat) (slug url : String) (meta : CaseAttrs)
        (pdfs : List PdfEntry)
        (download : String → Option (String × Int × Option String)) (exp : Bool),
      (process_listing_entry st now slug url meta pdfs download true exp).1 = st)
    ∧ (∀ (cases : List CaseRowM) (docs0 : DocsTable) (cursors0 : CursorsTable)
        (bs : Nat) (lim : Option Nat) (cname : String)
        (fetch : String → List PdfEntry)
        (download : String → String × Int × Option String)
        (reset nb : Bool) (ts : List Char) (now : Nat),
      (fe_main cases docs0 cursors0 bs lim cname fetch download reset true nb
        ts now).docs = docs0) := by
  constructor
  · intro st now slug url meta pdfs download exp
    have h := discover_doc_loop_dry now "dry-run" download exp st.docs pdfs
    rcases hp : discover_doc_loop now "dry-run" download true exp st.docs pdfs with ⟨d, urls⟩
    rw [hp] at h
    have hd : d = st.docs := h
    simp only [process_listing_entry, hp, eq_self_iff_true, if_true]
    rw [hd]
  · intro cases docs0 cursors0 bs lim cname fetch download reset nb ts now
    unfold fe_main
    simp only [Bool.not_true, Bool.and_false]
    exact fe_loop_no_backfill_docs cases _ bs lim cname fetch download true ts now _ _ _ _

/-- Claim C8 counterexample: a dry-run backfill over one case starts
with an empty `cursors` table and ends with a saved cursor row — the
run does mutate cursor state, contradicting "no cursor row is created,
updated, or deleted". -/
theorem dry_run_still_saves_cursor :
    (fe_main [fixCase] ⟨[]⟩ ⟨[]⟩ 200 none "extra_pdfs_progress" fixFetch2 fixDl
        false true false "T".data 7).cursors ≠ (⟨[]⟩ : CursorsTable) := by
  decide

/-! ## Claim C6: artifact classifier -/

/-- Claim C6 counterexample: on filename `treason.pdf` with no
contextual text, the code's substring fallback (`"reason" in fname`)
returns `reasons`, while the claim's algorithm — the same two regex
pattern groups evaluated against the filename alone — returns
`unknown`. -/
theorem classify_document_spec_mismatch :
    classify_document "".data "".data "treason.pdf".data = "reasons" ∧
    spec_classify_document "".data "".data "treason.pdf".data = "unknown" ∧
    classify_document "".data "".data "treason.pdf".data ≠
      spec_classify_document "".data "".data "treason.pdf".data := by
  decide

/-- Claim C6 (amended): the classifier returns a tag from the closed
set `reasons`/`decision`/`unknown`, evaluated in order — the reasons
regex group over the combined link/context/href text first, then the
decision regex group over the same text, then substring keyword checks
(`reasons`/`reason`, then `decision`/`determination`/`judgment`/
`judgement`) against the lower-cased final path component of the href,
otherwise `unknown`; the four specification examples hold. -/
theorem classify_document_ordered_rules :
    (∀ l c h, classify_document l c h = "reasons" ∨ classify_document l c h = "decision" ∨
      classify_document l c h = "unknown")
    ∧ (∀ l c h, reasonsPatternHit (combinedText l c h) = true →
        classify_document l c h = "reasons")
    ∧ (∀ l c h, reasonsPatternHit (combinedText l c h) = false →
        decisionPatternHit (combinedText l c h) = true →
        classify_document l c h = "decision")
    ∧ (∀ l c h, reasonsPatternHit (combinedText l c h) = false →
        decisionPatternHit (combinedText l c h) = false →
        fnameReasonsHit (fnameOf h) = true → classify_document l c h = "reasons")
    ∧ (∀ l c h, reasonsPatternHit (combinedText l c h) = false →
        decisionPatternHit (combinedText l c h) = false →
        fnameReasonsHit (fnameOf h) = false →
        fnameDecisionHit (fnameOf h) = true → classify_document l c h = "decision")
    ∧ (∀ l c h, reasonsPatternHit (combinedText l c h) = false →
        decisionPatternHit (combinedText l c h) = false →
        fnameReasonsHit (fnameOf h) = false →
        fnameDecisionHit (fnameOf h) = false → classify_document l c h = "unknown")
    ∧ classify_document "Statement of Reasons".data "".data "foo.pdf".data = "reasons"
    ∧ classify_document "Tribunal decision".data "".data "foo.pdf".data = "decision"
    ∧ classify_document "".data "".data "case_reasons_final.pdf".data = "reasons"
    ∧ classify_document "Other".data "".data "foo.pdf".data = "unknown" := by
  refine ⟨?_, ?_, ?_, ?_, ?_, ?_, by decide, by decide, by decide, by decide⟩
  · intro l c h
    by_cases h1 : reasonsPatternHit (combinedText l c h) <;>
      by_cases h2 : decisionPatternHit (combinedText l c h) <;>
      by_cases h3 : fnameReasonsHit (fnameOf h) <;>
      by_cases h4 : fnameDecisionHit (fnameOf h) <;>
      simp [classify_document, h1, h2, h3, h4]
  · intro l c h h1
    simp [classify_document, h1]
  · intro l c h h1 h2
    simp [classify_document, h1, h2]
  · intro l c h h1 h2 h3
    simp [classify_document, h1, h2, h3]
  · intro l c h h1 h2 h3 h4
    simp [classify_document, h1, h2, h3, h4]
  · intro l c h h1 h2 h3 h4
    simp [classify_document, h1, h2, h3, h4]

/-- Claim C6 witness: a link text matching the reasons group yields
`reasons` through the ordered rules. -/
theorem classify_document_ordered_rules_witness :
    classify_document "full reasons".data "".data "x".data = "reasons" :=
  classify_document_ordered_rules.2.1 _ _ _ (by decide)

/-! ## Claim C9: exit codes -/

/-- Claim C9 counterexample: a discovery run whose single item raised
(and was caught) still exits with code 0, while the error count is 1 —
"any item-level error makes the exit code non-zero" fails for the
discovery orchestrator. -/
theorem discover_exit_zero_with_error :
    discover_main_exit [true] = 0 ∧ run_error_count [true] = 1 := by
  decide

/-- Claim C9 (amended): the backfill orchestrator exits 0 exactly when
no item produced an error; the discovery and rescan orchestrators exit
0 on every completed run, whatever the item errors were. -/
theorem exit_code_by_orchestrator :
    (∀ out : List Bool, fe_exit_code (run_error_count out) = 0 ↔ run_error_count out = 0)
    ∧ (∀ out : List Bool, discover_main_exit out = 0)
    ∧ (∀ out : List Bool, rescrape_main_exit out = 0) := by
  refine ⟨?_, fun _ => rfl, fun _ => rfl⟩
  intro out
  by_cases hc : run_error_count out = 0 <;> simp [fe_exit_code, hc]

/-! ## Claims C7 and C10: cursor round trip and payload robustness -/

/-- A quote-free, backslash-free character run parses as a JSON string
body up to the closing quote. -/
theorem parseStrBody_safe (ts : List Char) (rest : List Char)
    (hq : '"' ∉ ts) (hb : '\\' ∉ ts) :
    parseStrBody (ts ++ '"' :: rest) = some (ts, rest) := by
  induction ts with
  | nil => rfl
  | cons c cs ih =>
    have hc1 : c ≠ '"' := fun h => hq (h ▸ List.mem_cons_self c cs)
    have hc2 : c ≠ '\\' := fun h => hb (h ▸ List.mem_cons_self c cs)
    have ih' := ih (fun h => hq (List.mem_cons_of_mem _ h))
      (fun h => hb (List.mem_cons_of_mem _ h))
    unfold parseStrBody at ih' ⊢
    rw [List.cons_append]
    simp only [parseStrBodyAux, if_neg hc1, if_neg hc2, ih']

/-- Parsing the cursor payload for offset 40 with fuel 5: the nesting
of the payload is fixed, so constant fuel suffices. -/
theorem parseVal_progress_payload (ts : List Char) (hq : '"' ∉ ts) (hb : '\\' ∉ ts) :
    parseVal 5 ('\x7b' :: '"' :: 'o' :: 'f' :: 'f' :: 's' :: 'e' :: 't' :: '"' :: ':' :: ' ' ::
      '4' :: '0' :: ',' :: ' ' :: '"' :: 't' :: 'i' :: 'm' :: 'e' :: 's' :: 't' :: 'a' ::
      'm' :: 'p' :: '"' :: ':' :: ' ' :: '"' :: (ts ++ ['"', '\x7d']))
      = some (.obj [("offset".data, .int 40), ("timestamp".data, .str ts)], []) := by
  have hts : parseStrBodyAux false (ts ++ '"' :: ['\x7d']) = some (ts, ['\x7d']) :=
    parseStrBody_safe ts ['\x7d'] hq hb
  simp [parseVal, parseMembers, parseStrBody, parseStrBodyAux, skipWs, isWsChar, parseNumber,
    spanDigits, digitsOk, numberOkAfter, digitsToNat, leadMatchRest, hts]

/-- The fuel-indexed JSON parsers are monotone in fuel: a successful
parse stays successful with more fuel. -/
theorem parse_mono :
    ∀ f : Nat,
      (∀ g cs out, f ≤ g → parseVal f cs = some out → parseVal g cs = some out) ∧
      (∀ g ae cs out, f ≤ g → parseMembers f ae cs = some out →
        parseMembers g ae cs = some out) ∧
      (∀ g ae cs out, f ≤ g → parseElems f ae cs = some out →
        parseElems g ae cs = some out) := by
  intro f
  induction f with
  | zero =>
    refine ⟨?_, ?_, ?_⟩
    · intro g cs out _ h
      exact absurd h (by simp [parseVal])
    · intro g ae cs out _ h
      exact absurd h (by simp [parseMembers])
    · intro g ae cs out _ h
      exact absurd h (by simp [parseElems])
  | succ f ih =>
    obtain ⟨ihV, ihM, ihE⟩ := ih
    refine ⟨?_, ?_, ?_⟩
    · intro g cs out hle h
      obtain ⟨g', rfl⟩ : ∃ g', g = g' + 1 := ⟨g - 1, by omega⟩
      have hle' : f ≤ g' := by omega
      rw [parseVal] at h ⊢
      cases hsk : skipWs cs with
      | nil => rw [hsk] at h; exact absurd h (by simp)
      | cons c rest =>
        rw [hsk] at h
        dsimp only at h ⊢
        by_cases h1 : c = '\x7b'
        · rw [if_pos h1] at h ⊢
          cases hm : parseMembers f true rest with
          | none => rw [hm] at h; exact absurd h (by simp)
          | some pr =>
            rw [hm] at h
            rw [ihM g' true rest pr hle' hm]
            exact h
        · rw [if_neg h1] at h ⊢
          by_cases h2 : c = '['
          · rw [if_pos h2] at h ⊢
            cases hm : parseElems f true rest with
            | none => rw [hm] at h; exact absurd h (by simp)
            | some pr =>
              rw [hm] at h
              rw [ihE g' true rest pr hle' hm]
              exact h
          · rw [if_neg h2] at h ⊢
            exact h
    · intro g ae cs out hle h
      obtain ⟨g', rfl⟩ : ∃ g', g = g' + 1 := ⟨g - 1, by omega⟩
      have hle' : f ≤ g' := by omega
      rw [parseMembers] at h ⊢
      cases hsk : skipWs cs with
      | nil => rw [hsk] at h; exact absurd h (by simp)
      | cons c rest =>
        rw [hsk] at h
        dsimp only at h ⊢
        by_cases h1 : c = '\x7d'
        · rw [if_pos h1] at h ⊢
          exact h
        · rw [if_neg h1] at h ⊢
          by_cases h2 : c = '"'
          · rw [if_pos h2] at h ⊢
            cases hs : parseStrBody rest with
            | none => rw [hs] at h; exact absurd h (by simp)
            | some kv =>
              obtain ⟨key, r1⟩ := kv
              rw [hs] at h
              dsimp only at h ⊢
              cases hsk2 : skipWs r1 with
              | nil => rw [hsk2] at h; exact absurd h (by simp)
              | cons d r2 =>
                rw [hsk2] at h
                dsimp only at h ⊢
                by_cases h3 : d = ':'
                · rw [if_pos h3] at h ⊢
                  cases hv : parseVal f r2 with
                  | none => rw [hv] at h; exact absurd h (by simp)
                  | some vr =>
                    obtain ⟨v, r3⟩ := vr
                    rw [hv] at h
                    rw [ihV g' r2 (v, r3) hle' hv]
                    dsimp only at h ⊢
                    cases hsk3 : skipWs r3 with
                    | nil => rw [hsk3] at h; exact absurd h (by simp)
                    | cons c2 r4 =>
                      rw [hsk3] at h
                      dsimp only at h ⊢
                      by_cases h4 : c2 = ','
                      · rw [if_pos h4] at h ⊢
                        cases hm2 : parseMembers f false r4 with
                        | none => rw [hm2] at h; exact absurd h (by simp)
                        | some kr =>
                          rw [hm2] at h
                          rw [ihM g' false r4 kr hle' hm2]
                          exact h
                      · rw [if_neg h4] at h ⊢
                        exact h
                · rw [if_neg h3] at h ⊢
                  exact h
          · rw [if_neg h2] at h ⊢
            exact h
    · intro g ae cs out hle h
      obtain ⟨g', rfl⟩ : ∃ g', g = g' + 1 := ⟨g - 1, by omega⟩
      have hle' : f ≤ g' := by omega
      rw [parseElems] at h ⊢
      cases hsk : skipWs cs with
      | nil => rw [hsk] at h; exact absurd h (by simp)
      | cons c rest =>
        rw [hsk] at h
        dsimp only at h ⊢
        by_cases h1 : c = ']'
        · rw [if_pos h1] at h ⊢
          exact h
        · rw [if_neg h1] at h ⊢
          cases hv : parseVal f (c :: rest) with
          | none => rw [hv] at h; exact absurd h (by simp)
          | some vr =>
            obtain ⟨v, r1⟩ := vr
            rw [hv] at h
            rw [ihV g' (c :: rest) (v, r1) hle' hv]
            dsimp only at h ⊢
            cases hsk2 : skipWs r1 with
            | nil => rw [hsk2] at h; exact absurd h (by simp)
            | cons c2 r2 =>
              rw [hsk2] at h
              dsimp only at h ⊢
              by_cases h4 : c2 = ','
              · rw [if_pos h4] at h ⊢
                cases hm2 : parseElems f false r2 with
                | none => rw [hm2] at h; exact absurd h (by simp)
                | some kr =>
                  rw [hm2] at h
                  rw [ihE g' false r2 kr hle' hm2]
                  exact h
              · rw [if_neg h4] at h ⊢
                exact h

/-- The offset-40 cursor payload, character by character. -/
theorem progress_payload_eq (ts : List Char) :
    progress_payload 40 ts =
      '\x7b' :: '"' :: 'o' :: 'f' :: 'f' :: 's' :: 'e' :: 't' :: '"' :: ':' :: ' ' ::
      '4' :: '0' :: ',' :: ' ' :: '"' :: 't' :: 'i' :: 'm' :: 'e' :: 's' :: 't' :: 'a' ::
      'm' :: 'p' :: '"' :: ':' :: ' ' :: '"' :: (ts ++ ['"', '\x7d']) := by
  have h1 : "\x7b\"offset\": ".data =
      ['\x7b', '"', 'o', 'f', 'f', 's', 'e', 't', '"', ':', ' '] := rfl
  have h2 : int_repr 40 = ['4', '0'] := rfl
  have h3 : ", \"timestamp\": \"".data =
      [',', ' ', '"', 't', 'i', 'm', 'e', 's', 't', 'a', 'm', 'p', '"', ':', ' ', '"'] := rfl
  have h4 : "\"\x7d".data = ['"', '\x7d'] := rfl
  rw [progress_payload, h1, h2, h3, h4]
  simp [List.append_assoc]

/-- `json.loads` recovers the offset/timestamp object from the
payload `save_progress` writes, for any quote-free, backslash-free
timestamp text. -/
theorem json_loads_progress_payload (ts : List Char) (hq : '"' ∉ ts) (hb : '\\' ∉ ts) :
    json_loads (progress_payload 40 ts) =
      some (.obj [("offset".data, .int 40), ("timestamp".data, .str ts)]) := by
  have h5 := parseVal_progress_payload ts hq hb
  have hbig := (parse_mono 5).1 ((progress_payload 40 ts).length + 1)
      (progress_payload 40 ts)
      (.obj [("offset".data, .int 40), ("timestamp".data, .str ts)], [])
      (by rw [progress_payload_eq]; simp)
      (by rw [progress_payload_eq]; exact h5)
  rw [json_loads, hbig]
  rfl

/-- After a create-or-replace on a name that already has a row, the
row found for that name carries the new payload. -/
theorem cursor_rows_upsert_find (name : String) (payload : List Char) (now : Nat) :
    ∀ rows : List CursorRec, rows.any (fun r => r.name == name) = true →
      (((rows.map fun r =>
          if r.name == name then
            { r with last_seen_slug := some payload, last_run_at := now }
          else r).find? fun r => r.name == name).map (·.last_seen_slug)) =
        some (some payload) := by
  intro rows h
  induction rows with
  | nil => simp at h
  | cons r rs ih =>
    by_cases hr : (r.name == name) = true
    · rw [List.map_cons, if_pos hr]
      have hru : (({ r with last_seen_slug := some payload, last_run_at := now } : CursorRec).name == name) = true := hr
      simp only [List.find?_cons, hru]
      rfl
    · have h' : rs.any (fun r => r.name == name) = true := by
        simpa [List.any_cons, hr] using h
      have hrf : (r.name == name) = false := by
        simpa using hr
      rw [List.map_cons, if_neg hr]
      simp only [List.find?_cons, hrf]
      exact ih h'

/-- Looking up a cursor name right after `cursor_upsert` returns the
saved payload. -/
theorem cursor_lookup_upsert (t : CursorsTable) (name : String) (payload : List Char)
    (now : Nat) :
    cursor_lookup (cursor_upsert t name payload now) name = some (some payload) := by
  unfold cursor_upsert cursor_lookup
  by_cases h : t.rows.any (fun r => r.name == name) = true
  · rw [if_pos h]
    exact cursor_rows_upsert_find name payload now t.rows h
  · rw [if_neg h]
    have hf : t.rows.find? (fun r => r.name == name) = none := by
      rw [List.find?_eq_none]
      intro r hr hcon
      exact h (List.any_eq_true.mpr ⟨r, hr, hcon⟩)
    have := find?_append_of_none (fun r : CursorRec => r.name == name) t.rows
      [⟨name, some payload, now⟩] hf
    simp only [this]
    simp [List.find?]

/-- After `clear_progress` the cursor row for the name is gone. -/
theorem cursor_lookup_clear (t : CursorsTable) (name : String) :
    cursor_lookup (clear_progress t name) name = none := by
  unfold clear_progress cursor_lookup
  have : (t.rows.filter fun r => !(r.name == name)).find? (fun r => r.name == name) = none := by
    rw [List.find?_eq_none]
    intro r hr hcon
    have := (List.mem_filter.mp hr).2
    simp [hcon] at this
  simp [this]

/-- Claim C7: for every job name, `save(job, offset 40)` then
`load(job)` returns 40; `clear(job)` then `load(job)` returns the
default offset 0; and `load` on a missing key returns 0 rather than
failing. -/
theorem cursor_store_roundtrip (t : CursorsTable) (name : String) (ts : List Char)
    (now : Nat) (hq : '"' ∉ ts) (hb : '\\' ∉ ts) :
    load_progress (save_progress t name 40 ts now) name = 40 ∧
    load_progress (clear_progress t name) name = 0 ∧
    (cursor_lookup t name = none → load_progress t name = 0) := by
  refine ⟨?_, ?_, ?_⟩
  · rw [load_progress, save_progress, cursor_lookup_upsert]
    simp only [load_progress_payload]
    have hne : (progress_payload 40 ts).isEmpty = false := by
      rw [progress_payload_eq]
      rfl
    rw [hne, json_loads_progress_payload ts hq hb]
    rfl
  · rw [load_progress, cursor_lookup_clear]
    rfl
  · intro h
    rw [load_progress, h]
    rfl

/-- Claim C7 witness: the round trip on an empty cursors table with
a concrete timestamp. -/
theorem cursor_store_roundtrip_witness :
    load_progress (save_progress ⟨[]⟩ "jobA" 40 "2026-01-01T00:00:00".data 5) "jobA" = 40 :=
  (cursor_store_roundtrip ⟨[]⟩ "jobA" "2026-01-01T00:00:00".data 5 (by decide) (by decide)).1

/-- The empty payload is not valid JSON. -/
theorem json_loads_nil : json_loads [] = none := rfl

/-- Claim C10: loading the progress offset is total — the embedded
function returns an integer on every input — and returns the integer
`offset` field of a valid JSON object payload, and 0 when the cursor
row is absent, the payload is NULL or empty, the payload is not valid
JSON, the parsed value is not an object, the `offset` field is missing,
or the field is not coercible to an integer. -/
theorem load_progress_total_cases :
    (∀ s kvs n, json_loads s = some (.obj kvs) →
      objGet kvs "offset".data = some (.int n) →
      load_progress_payload (some (some s)) = n)
    ∧ load_progress_payload none = 0
    ∧ load_progress_payload (some none) = 0
    ∧ load_progress_payload (some (some [])) = 0
    ∧ (∀ s, json_loads s = none → load_progress_payload (some (some s)) = 0)
    ∧ (∀ s v, json_loads s = some v → (∀ kvs, v ≠ JVal.obj kvs) →
        load_progress_payload (some (some s)) = 0)
    ∧ (∀ s kvs, json_loads s = some (.obj kvs) →
        objGet kvs "offset".data = none →
        load_progress_payload (some (some s)) = 0)
    ∧ (∀ s kvs v, json_loads s = some (.obj kvs) →
        objGet kvs "offset".data = some v → pyInt v = none →
        load_progress_payload (some (some s)) = 0) := by
  have hnonempty : ∀ (s : List Char) (v : JVal), json_loads s = some v →
      s.isEmpty = false := by
    intro s v hj
    cases s with
    | nil => rw [json_loads_nil] at hj; exact absurd hj (by simp)
    | cons c cs => rfl
  refine ⟨?_, rfl, rfl, rfl, ?_, ?_, ?_, ?_⟩
  · intro s kvs n hj ho
    simp only [load_progress_payload, hnonempty s _ hj, hj, ho]
    rfl
  · intro s hj
    cases s with
    | nil => rfl
    | cons c cs => simp only [load_progress_payload, hj]; rfl
  · intro s v hj hno
    cases v with
    | obj kvs => exact absurd rfl (hno kvs)
    | null => simp only [load_progress_payload, hnonempty s _ hj, hj]; rfl
    | bool b => simp only [load_progress_payload, hnonempty s _ hj, hj]; rfl
    | int m => simp only [load_progress_payload, hnonempty s _ hj, hj]; rfl
    | str t => simp only [load_progress_payload, hnonempty s _ hj, hj]; rfl
    | arr xs => simp only [load_progress_payload, hnonempty s _ hj, hj]; rfl
  · intro s kvs hj ho
    simp only [load_progress_payload, hnonempty s _ hj, hj, ho]
    rfl
  · intro s kvs v hj ho hp
    simp only [load_progress_payload, hnonempty s _ hj, hj, ho, hp]
    rfl

/-- Claim C10 witness: concrete payloads for the valid-offset case
and for each failure case. -/
theorem load_progress_total_cases_witness :
    load_progress_payload (some (some "\x7b\"offset\": 40\x7d".data)) = 40 ∧
    load_progress_payload (some (some "nope".data)) = 0 ∧
    load_progress_payload (some (some "[1]".data)) = 0 ∧
    load_progress_payload (some (some "\x7b\"a\": 1\x7d".data)) = 0 ∧
    load_progress_payload (some (some "\x7b\"offset\": null\x7d".data)) = 0 :=
  ⟨load_progress_total_cases.1 "\x7b\"offset\": 40\x7d".data
      [("offset".data, .int 40)] 40 rfl rfl,
   load_progress_total_cases.2.2.2.2.1 "nope".data rfl,
   load_progress_total_cases.2.2.2.2.2.1 "[1]".data (.arr [.int 1]) rfl
     (fun kvs h => by cases h),
   load_progress_total_cases.2.2.2.2.2.2.1 "\x7b\"a\": 1\x7d".data
      [("a".data, .int 1)] rfl rfl,
   load_progress_total_cases.2.2.2.2.2.2.2 "\x7b\"offset\": null\x7d".data
      [("offset".data, .null)] .null rfl rfl rfl⟩
